import Mathlib

/-!
Verification of the coroutine/IO-scheduler core of `lib_coroutine`.

The development shallowly embeds the C++ of the repository:

* `src/src/timer.cc` — `Timer`, `TimerManager` (comparator, `getNextTimer`,
  `listExpiredCb`, `detectClockRollover`, `Timer::reset`, `Timer::refresh`);
* `src/sylar/src/iomanager.cc` — `IOManager::addEvent` / `delEvent` /
  `cancelEvent` / `cancelAll` and `FdContext::triggerEvent`;
* `src/src/iomanager.cc` — the second copy of `FdContext::triggerEvent`;
* `src/unnamed/part_007` (fiber.cc) — `Fiber::resume`;
* `src/sylar/include/thread.h` — `Scheduler::schedule` / `scheduleNoLock`.

Machine integers (`uint64_t`) are modelled as `Nat` with explicit wraparound
where the source can overflow.  Heap identity (raw pointers, `shared_ptr`
targets) is modelled by a `Nat` tag.  Callbacks (`std::function`) are opaque
and modelled by a `Nat` tag as well; a null `std::function` is `none`.
`SYLAR_ASSERT` (src/sylar/util/macro.h) expands to `if (SYLAR_ASSERT_ON) …`
with `SYLAR_ASSERT_ON` defined to `false`, so every assertion in the sources
is dead code; the embedding keeps the macro structure explicit.
-/

namespace Sylar

/-- Largest `uint64_t` value, the `~0ull` sentinel used by the timer code. -/
def UINT64_MAX : Nat := 2 ^ 64 - 1

/-- Unsigned 64-bit subtraction `a - b` exactly as the C++ `uint64_t`
operator computes it, for operands `a b < 2 ^ 64`: it wraps modulo `2 ^ 64`
when `b > a`. -/
def usub64 (a b : Nat) : Nat := (a + (2 ^ 64 - b % 2 ^ 64)) % 2 ^ 64

/-- Unsigned 64-bit addition `a + b` exactly as the C++ `uint64_t` operator
computes it: it wraps modulo `2 ^ 64`. -/
def uadd64 (a b : Nat) : Nat := (a + b) % 2 ^ 64

/-- The assertion switch: `#define SYLAR_ASSERT_ON false`
(src/sylar/util/macro.h line 29). -/
def SYLAR_ASSERT_ON : Bool := false

/-- `SYLAR_ASSERT(x)`: the whole macro body is guarded by
`if (SYLAR_ASSERT_ON)`, so with the switch set to `false` a failed condition
neither aborts nor changes control flow.  `none` models the `assert` abort. -/
def sylarAssert (cond : Bool) : Option Unit :=
  if SYLAR_ASSERT_ON && !cond then none else some ()

/-! ## Timers (src/src/timer.cc, src/include/timer.h) -/

/-- One `sylar::Timer`.  `id` models the heap address of the object (the
comparator's tie-break and the `std::set` identity); `m_cb` is the callback,
`none` once cancelled. -/
structure Timer where
  id : Nat
  m_next : Nat
  m_ms : Nat
  m_recurring : Bool
  m_cb : Option Nat
  deriving DecidableEq, Repr

/-- `Timer::Comparator::operator()` on non-null pointers: order by `m_next`,
ties broken by the pointer address (`id`). -/
def timerLt (lhs rhs : Timer) : Bool :=
  lhs.m_next < rhs.m_next || (lhs.m_next == rhs.m_next && lhs.id < rhs.id)

/-- Insertion into the ordered `std::set<Timer::ptr, Timer::Comparator>`,
modelled as a list kept sorted by `timerLt`. -/
def insertTimer : List Timer → Timer → List Timer
  | [], t => [t]
  | x :: xs, t => if timerLt t x then t :: x :: xs else x :: insertTimer xs t

/-- The sortedness invariant of `m_timers` (a `std::set` iterated in
comparator order). -/
def TimersSorted (l : List Timer) : Prop :=
  List.Pairwise (fun a b => timerLt a b = true) l

/-- `sylar::TimerManager` state: the ordered timer set, the tickled flag and
the last observed monotonic time. -/
structure TimerManager where
  m_timers : List Timer
  m_tickled : Bool
  m_previousTime : Nat
  deriving DecidableEq, Repr

/-- `TimerManager::detectClockRollover` (src/src/timer.cc lines 156-162).
Returns the rollover flag and the updated `m_previousTime`.  The guard is
`now_ms < m_previousTime && now_ms < (m_previousTime - 60 * 60 * 1000)`,
where the subtraction is `uint64_t` arithmetic and wraps around when
`m_previousTime < 3600000`. -/
def detectClockRollover (m_previousTime now_ms : Nat) : Bool × Nat :=
  let rollover :=
    decide (now_ms < m_previousTime) &&
    decide (now_ms < usub64 m_previousTime (60 * 60 * 1000))
  (rollover, now_ms)

/-- `TimerManager::getNextTimer` (src/src/timer.cc lines 95-107).  The
current time `now_ms` (`sylar::GetElapsedMS()`) is passed as a parameter. -/
def TimerManager.getNextTimer (s : TimerManager) (now_ms : Nat) : Nat × TimerManager :=
  let s := { s with m_tickled := false }
  match s.m_timers with
  | [] => (UINT64_MAX, s)
  | next :: _ => if next.m_next ≤ now_ms then (0, s) else (next.m_next - now_ms, s)

/-- `TimerManager::listExpiredCb` (src/src/timer.cc lines 109-146).  Returns
the collected callbacks and the new manager state.  On a sorted set, the
`lower_bound` followed by the loop skipping timers with `m_next == now_ms`
selects exactly the initial run of timers with `m_next ≤ now_ms` (all of the
set if a rollover was detected); the rest of the set survives.  Expired
recurring timers are re-inserted at `now_ms + m_ms` — a `uint64_t` addition,
which wraps modulo `2 ^ 64`; expired one-shot timers get their callback
nulled and are dropped from the set. -/
def TimerManager.listExpiredCb (s : TimerManager) (now_ms : Nat) :
    List (Option Nat) × TimerManager :=
  match s.m_timers with
  | [] => ([], s)
  | first :: _ =>
    let rollover := (detectClockRollover s.m_previousTime now_ms).1
    let s1 := { s with m_previousTime := (detectClockRollover s.m_previousTime now_ms).2 }
    if !rollover && decide (now_ms < first.m_next) then ([], s1)
    else
      let expired :=
        if rollover then s1.m_timers
        else s1.m_timers.takeWhile (fun t => decide (t.m_next ≤ now_ms))
      let remaining :=
        if rollover then []
        else s1.m_timers.dropWhile (fun t => decide (t.m_next ≤ now_ms))
      let cbs := expired.map Timer.m_cb
      let reinserted :=
        (expired.filter (fun t => t.m_recurring)).map
          (fun t => { t with m_next := uadd64 now_ms t.m_ms })
      (cbs, { s1 with m_timers := reinserted.foldl insertTimer remaining })

/-- `Timer::refresh` (src/src/timer.cc lines 41-52).  The timer handle `tm`
and the owning manager's state are passed and returned explicitly.  The set
lookup `m_timers.find(shared_from_this())` succeeds exactly when the set
still holds this object (object identity = `id`; the erase removes that one
element, which `filter` matches because set elements have distinct
addresses). -/
def Timer.refresh (tm : Timer) (s : TimerManager) (now_ms : Nat) :
    Bool × Timer × TimerManager :=
  if tm.m_cb = none then (false, tm, s)
  else if !(s.m_timers.any (fun u => u.id == tm.id)) then (false, tm, s)
  else
    let erased := s.m_timers.filter (fun u => u.id != tm.id)
    let tm' := { tm with m_next := now_ms + tm.m_ms }
    (true, tm', { s with m_timers := insertTimer erased tm' })

/-- `Timer::reset` (src/src/timer.cc lines 54-70).  The first test
`ms == m_ms && !from_now` returns `true` before the lock is taken and before
any other state is read. -/
def Timer.reset (tm : Timer) (s : TimerManager) (now_ms ms : Nat) (from_now : Bool) :
    Bool × Timer × TimerManager :=
  if ms == tm.m_ms && !from_now then (true, tm, s)
  else if tm.m_cb = none then (false, tm, s)
  else if !(s.m_timers.any (fun u => u.id == tm.id)) then (false, tm, s)
  else
    let erased := s.m_timers.filter (fun u => u.id != tm.id)
    let start_t := if from_now then now_ms else tm.m_next - tm.m_ms
    let tm' := { tm with m_ms := ms, m_next := start_t + ms }
    (true, tm', { s with m_timers := insertTimer erased tm' })

/-! ## Fiber (src/unnamed/part_007, i.e. fiber.cc; src/sylar/include/…) -/

/-- `Fiber::State`. -/
inductive FiberState
  | READY
  | RUNNING
  | TERM
  deriving DecidableEq, Repr

/-- The fields of `sylar::Fiber` that `resume` reads and writes. -/
structure Fiber where
  m_state : FiberState
  m_runInScheduler : Bool
  deriving DecidableEq, Repr

/-- Which saved context `swapcontext` stores the caller into: the scheduling
fiber of the thread (`Scheduler::GetMainFiber()`) or the thread's main fiber
(`t_thread_fiber`). -/
inductive SwapPartner
  | schedulerMainFiber
  | threadMainFiber
  deriving DecidableEq, Repr

/-- `Fiber::resume` (src/unnamed/part_007 lines 152-167).  The result is
`none` if the assertion aborts, otherwise the fiber after the call together
with the context the caller was saved into; `some` means `swapcontext` was
reached and executed. -/
def Fiber.resume (f : Fiber) : Option (Fiber × SwapPartner) :=
  match sylarAssert (decide (f.m_state ≠ .TERM ∧ f.m_state ≠ .RUNNING)) with
  | none => none
  | some _ =>
    let f := { f with m_state := .RUNNING }
    some (f, if f.m_runInScheduler then .schedulerMainFiber else .threadMainFiber)

/-! ## Scheduler task queue (src/sylar/include/thread.h lines 629-688) -/

/-- `Scheduler::ScheduleTask`: a fiber or a callback (either may be null)
plus the thread hint.  Fiber and callback identities are `Nat` tags. -/
structure ScheduleTask where
  fiber : Option Nat
  cb : Option Nat
  thread : Int
  deriving DecidableEq, Repr

/-- The component of the `sylar::Scheduler` state that `schedule` touches:
the shared FIFO task queue. -/
structure Scheduler where
  m_tasks : List ScheduleTask
  deriving DecidableEq, Repr

/-- `Scheduler::scheduleNoLock`: records whether the queue was empty before
the push, and appends the task only when it holds a fiber or a callback. -/
def Scheduler.scheduleNoLock (s : Scheduler) (task : ScheduleTask) : Scheduler × Bool :=
  let need_tickle := s.m_tasks.isEmpty
  let s' :=
    if task.fiber.isSome || task.cb.isSome then { s with m_tasks := s.m_tasks ++ [task] }
    else s
  (s', need_tickle)

/-- `Scheduler::schedule`: `scheduleNoLock` under the queue lock, then
`tickle()` exactly when `need_tickle` was set.  The boolean component records
whether `tickle()` was called. -/
def Scheduler.schedule (s : Scheduler) (task : ScheduleTask) : Scheduler × Bool :=
  s.scheduleNoLock task

/-! ## FdContext and the two triggerEvent copies -/

/-- `IOManager::Event` — `READ = EPOLLIN`, `WRITE = EPOLLOUT`. -/
inductive Event
  | READ
  | WRITE
  deriving DecidableEq, Repr

/-- The registered event mask of an fd: a subset of `{READ, WRITE}`
(the `m_events`-style bitmask restricted to the two bits the code uses). -/
structure EventSet where
  hasRead : Bool
  hasWrite : Bool
  deriving DecidableEq, Repr

/-- The empty mask (`NONE = 0x0`). -/
def EventSet.NONE : EventSet := ⟨false, false⟩

/-- `events & event`. -/
def EventSet.contains (m : EventSet) : Event → Bool
  | .READ => m.hasRead
  | .WRITE => m.hasWrite

/-- `events | event`. -/
def EventSet.add (m : EventSet) : Event → EventSet
  | .READ => { m with hasRead := true }
  | .WRITE => { m with hasWrite := true }

/-- `events & ~event`. -/
def EventSet.remove (m : EventSet) : Event → EventSet
  | .READ => { m with hasRead := false }
  | .WRITE => { m with hasWrite := false }

/-- `events == 0`. -/
def EventSet.isEmpty (m : EventSet) : Bool := !m.hasRead && !m.hasWrite

/-- Number of event bits set (`|mask|`). -/
def EventSet.size (m : EventSet) : Nat :=
  (if m.hasRead then 1 else 0) + (if m.hasWrite then 1 else 0)

/-- `IOManager::FdContext::EventContext`: captured scheduler, fiber and
callback, each possibly null.  Scheduler, fiber and callback identities are
`Nat` tags. -/
structure EventContext where
  scheduler : Option Nat
  fiber : Option Nat
  cb : Option Nat
  deriving DecidableEq, Repr

/-- The all-null `EventContext` (the state `resetEventContext` produces). -/
def EventContext.empty : EventContext := ⟨none, none, none⟩

/-- `IOManager::FdContext`: the descriptor, the two per-event contexts and
the registered event mask. -/
structure FdContext where
  fd : Nat
  read : EventContext
  write : EventContext
  events : EventSet
  deriving DecidableEq, Repr

/-- A just-constructed `FdContext` with its `fd` field set, as
`IOManager::contextResize` creates them. -/
def FdContext.fresh (i : Nat) : FdContext := ⟨i, .empty, .empty, .NONE⟩

/-- `FdContext::getEventContext`. -/
def FdContext.getEventContext (f : FdContext) : Event → EventContext
  | .READ => f.read
  | .WRITE => f.write

/-- Writing through the reference `getEventContext` returns. -/
def FdContext.setEventContext (f : FdContext) (e : Event) (c : EventContext) : FdContext :=
  match e with
  | .READ => { f with read := c }
  | .WRITE => { f with write := c }

/-- `FdContext::resetEventContext`: null scheduler, fiber and callback. -/
def FdContext.resetEventContext (f : FdContext) (e : Event) : FdContext :=
  f.setEventContext e .empty

/-- One task handed to `Scheduler::schedule` by `triggerEvent`: the captured
scheduler the call went through, and the fiber or callback passed to it. -/
structure Scheduled where
  scheduler : Option Nat
  fiber : Option Nat
  cb : Option Nat
  deriving DecidableEq, Repr

/-- The outcome of one `triggerEvent` call: the updated `FdContext`, the
tasks scheduled through a captured scheduler, and the callbacks invoked
inline in the calling context. -/
structure TriggerResult where
  fdc : FdContext
  scheduled : List Scheduled
  inlineCalls : List Nat
  deriving DecidableEq, Repr

/-- `IOManager::FdContext::triggerEvent`, the copy in
src/sylar/src/iomanager.cc lines 87-103: clear the event bit, schedule the
callback — or, if there is none, the fiber — on the captured scheduler, then
reset the `EventContext`.  (`SYLAR_ASSERT(events & event)` is dead code since
`SYLAR_ASSERT_ON = false`.) -/
def FdContext.triggerEventSylar (f : FdContext) (e : Event) : TriggerResult :=
  let f := { f with events := f.events.remove e }
  let ctx := f.getEventContext e
  let sched : List Scheduled :=
    if ctx.cb.isSome then [⟨ctx.scheduler, none, ctx.cb⟩]
    else [⟨ctx.scheduler, ctx.fiber, none⟩]
  ⟨f.resetEventContext e, sched, []⟩

/-- `IOManager::FdContext::triggerEvent`, the copy in src/src/iomanager.cc
lines 84-96: identical except that a present callback is invoked inline
(`ctx.cb()`) in the calling context instead of being scheduled. -/
def FdContext.triggerEventSrc (f : FdContext) (e : Event) : TriggerResult :=
  let f := { f with events := f.events.remove e }
  let ctx := f.getEventContext e
  match ctx.cb with
  | some c => ⟨f.resetEventContext e, [], [c]⟩
  | none => ⟨f.resetEventContext e, [⟨ctx.scheduler, ctx.fiber, none⟩], []⟩

/-! ## IOManager (src/sylar/src/iomanager.cc) -/

/-- `EPOLL_CTL_*` operations. -/
inductive EpollCtlOp
  | ADD
  | MOD
  | DEL
  deriving DecidableEq, Repr

/-- Kernel-side model of `epoll_ctl` on a valid epoll instance: the kernel
keeps an interest mask per fd (`EventSet.NONE` = not registered; the code
never registers an empty mask).  `ADD` fails with `EEXIST` if the fd is
already registered; `MOD` and `DEL` fail with `ENOENT` if it is not. -/
def epollCtl (kernel : Nat → EventSet) (op : EpollCtlOp) (fd : Nat) (ev : EventSet) :
    Option (Nat → EventSet) :=
  match op with
  | .ADD =>
    if (kernel fd).isEmpty then some (fun x => if x = fd then ev else kernel x) else none
  | .MOD =>
    if (kernel fd).isEmpty then none else some (fun x => if x = fd then ev else kernel x)
  | .DEL =>
    if (kernel fd).isEmpty then none else some (fun x => if x = fd then .NONE else kernel x)

/-- The `sylar::IOManager` state the event operations touch: the `FdContext`
table, the pending-event counter, the kernel's epoll registration table, and
the log of tasks handed to `Scheduler::schedule` by `triggerEvent`. -/
structure IOManager where
  m_fdContexts : List FdContext
  m_pendingEventCount : Nat
  kernel : Nat → EventSet
  scheduledLog : List Scheduled

/-- `IOManager::contextResize`: `std::vector::resize` to `size`, creating a
fresh `FdContext` (with its `fd` field set) in every new slot. -/
def contextResize (l : List FdContext) (size : Nat) : List FdContext :=
  l.take size ++ ((List.range size).drop l.length).map FdContext.fresh

/-- The fd's entry of the context table.  The source indexes the vector
unconditionally (`m_fdContexts[fd]`); on the operations modelled below the
index is always in range, so the default is never read on reachable
states. -/
def IOManager.fdContextOf (s : IOManager) (fd : Nat) : FdContext :=
  s.m_fdContexts.getD fd (FdContext.fresh fd)

/-- Sum over all fd-contexts of the number of registered event bits. -/
def IOManager.maskSum (s : IOManager) : Nat :=
  (s.m_fdContexts.map (fun c => c.events.size)).sum

/-- `IOManager::addEvent` (src/sylar/src/iomanager.cc lines 151-205).
`cb` is the callback argument (`none` = not supplied), `currentScheduler`
models `Scheduler::GetThis()` and `currentFiber` models `Fiber::GetThis()`.
Returns `0` on success and `-1` on `epoll_ctl` failure.  The
duplicate-registration branch (lines 169-173) only logs: its
`SYLAR_ASSERT(!(fd_ctx->events & event))` is dead code because
`SYLAR_ASSERT_ON = false`, so execution falls through into the registration
path.  Likewise the assertion that the `EventContext` is empty (line 194) is
dead code, and populating the context overwrites `scheduler` and whichever of
`cb`/`fiber` the call sets, leaving the other field as it was. -/
def IOManager.addEvent (s : IOManager) (fd : Nat) (event : Event) (cb : Option Nat)
    (currentScheduler : Option Nat) (currentFiber : Nat) : Int × IOManager :=
  let s :=
    if fd < s.m_fdContexts.length then s
    else { s with m_fdContexts := contextResize s.m_fdContexts (3 * fd / 2) }
  let fd_ctx := s.m_fdContexts.getD fd (FdContext.fresh fd)
  let op := if fd_ctx.events.isEmpty then EpollCtlOp.ADD else EpollCtlOp.MOD
  let epevents := fd_ctx.events.add event
  match epollCtl s.kernel op fd epevents with
  | none => (-1, s)
  | some k =>
    let fd_ctx := { fd_ctx with events := fd_ctx.events.add event }
    let ctx := fd_ctx.getEventContext event
    let ctx :=
      { ctx with
        scheduler := currentScheduler
        fiber := if cb.isSome then ctx.fiber else some currentFiber
        cb := if cb.isSome then cb else ctx.cb }
    let fd_ctx := fd_ctx.setEventContext event ctx
    (0,
     { s with
       m_fdContexts := s.m_fdContexts.set fd fd_ctx
       m_pendingEventCount := s.m_pendingEventCount + 1
       kernel := k })

/-- `IOManager::delEvent` (src/sylar/src/iomanager.cc lines 207-241):
unregister without firing; clears the `EventContext` and decrements the
pending-event counter. -/
def IOManager.delEvent (s : IOManager) (fd : Nat) (event : Event) : Bool × IOManager :=
  if s.m_fdContexts.length ≤ fd then (false, s)
  else
    let fd_ctx := s.m_fdContexts.getD fd (FdContext.fresh fd)
    if !(fd_ctx.events.contains event) then (false, s)
    else
      let new_events := fd_ctx.events.remove event
      let op := if new_events.isEmpty then EpollCtlOp.DEL else EpollCtlOp.MOD
      match epollCtl s.kernel op fd new_events with
      | none => (false, s)
      | some k =>
        let fd_ctx := { fd_ctx with events := new_events }
        let fd_ctx := fd_ctx.resetEventContext event
        (true,
         { s with
           m_fdContexts := s.m_fdContexts.set fd fd_ctx
           m_pendingEventCount := s.m_pendingEventCount - 1
           kernel := k })

/-- `IOManager::cancelEvent` (src/sylar/src/iomanager.cc lines 243-274):
same epoll update as `delEvent`, then fires the event context via
`triggerEvent` and decrements the pending-event counter. -/
def IOManager.cancelEvent (s : IOManager) (fd : Nat) (event : Event) : Bool × IOManager :=
  if s.m_fdContexts.length ≤ fd then (false, s)
  else
    let fd_ctx := s.m_fdContexts.getD fd (FdContext.fresh fd)
    if !(fd_ctx.events.contains event) then (false, s)
    else
      let new_events := fd_ctx.events.remove event
      let op := if new_events.isEmpty then EpollCtlOp.DEL else EpollCtlOp.MOD
      match epollCtl s.kernel op fd new_events with
      | none => (false, s)
      | some k =>
        let tr := fd_ctx.triggerEventSylar event
        (true,
         { s with
           m_fdContexts := s.m_fdContexts.set fd tr.fdc
           m_pendingEventCount := s.m_pendingEventCount - 1
           kernel := k
           scheduledLog := s.scheduledLog ++ tr.scheduled })

/-- `IOManager::cancelAll` (src/sylar/src/iomanager.cc lines 276-315):
epoll `DEL`, then fire the READ and WRITE contexts that were registered,
decrementing the pending-event counter for each. -/
def IOManager.cancelAll (s : IOManager) (fd : Nat) : Bool × IOManager :=
  if s.m_fdContexts.length ≤ fd then (false, s)
  else
    let fd_ctx := s.m_fdContexts.getD fd (FdContext.fresh fd)
    if fd_ctx.events.isEmpty then (false, s)
    else
      match epollCtl s.kernel .DEL fd .NONE with
      | none => (false, s)
      | some k =>
        let step1 :=
          if fd_ctx.events.contains .READ then
            let tr := fd_ctx.triggerEventSylar .READ
            (tr.fdc, tr.scheduled, 1)
          else (fd_ctx, [], 0)
        let step2 :=
          if step1.1.events.contains .WRITE then
            let tr := step1.1.triggerEventSylar .WRITE
            (tr.fdc, tr.scheduled, 1)
          else (step1.1, [], 0)
        (true,
         { s with
           m_fdContexts := s.m_fdContexts.set fd step2.1
           m_pendingEventCount := s.m_pendingEventCount - step1.2.2 - step2.2.2
           kernel := k
           scheduledLog := s.scheduledLog ++ step1.2.1 ++ step2.2.1 })

/-- The `IOManager` state right after construction
(src/sylar/src/iomanager.cc lines 105-125): `contextResize(32)`, pending
counter 0.  The tickle-pipe registration lives on the pipe's own fd and is
never touched by the event operations on user fds, so the kernel table is
modelled as empty. -/
def initialIOManager : IOManager :=
  { m_fdContexts := contextResize [] 32
    m_pendingEventCount := 0
    kernel := fun _ => .NONE
    scheduledLog := [] }

/-! ## Helper lemmas -/

theorem timerLt_le {a b : Timer} (h : timerLt a b = true) : a.m_next ≤ b.m_next := by
  unfold timerLt at h
  simp only [Bool.or_eq_true, Bool.and_eq_true, decide_eq_true_eq, beq_iff_eq] at h
  rcases h with h | ⟨h, _⟩ <;> omega

theorem mem_insertTimer {u t : Timer} {l : List Timer} :
    u ∈ insertTimer l t ↔ u ∈ l ∨ u = t := by
  induction l with
  | nil => simp [insertTimer]
  | cons x xs ih =>
    simp only [insertTimer]
    split
    · simp only [List.mem_cons]
      tauto
    · simp only [List.mem_cons, ih]
      tauto

theorem mem_foldl_insertTimer {u : Timer} (ts l : List Timer) :
    u ∈ ts.foldl insertTimer l ↔ u ∈ l ∨ u ∈ ts := by
  induction ts generalizing l with
  | nil => simp
  | cons t ts ih =>
    simp only [List.foldl_cons, ih, mem_insertTimer, List.mem_cons]
    tauto

theorem sorted_mem_takeWhile {l : List Timer} {t : Timer} {now : Nat}
    (hs : TimersSorted l) (hm : t ∈ l) (hle : t.m_next ≤ now) :
    t ∈ l.takeWhile (fun u => decide (u.m_next ≤ now)) := by
  induction l with
  | nil => simp at hm
  | cons x xs ih =>
    rcases List.pairwise_cons.mp hs with ⟨hx, hxs⟩
    have hxle : x.m_next ≤ now := by
      rcases List.mem_cons.mp hm with rfl | hmem
      · exact hle
      · exact le_trans (timerLt_le (hx t hmem)) hle
    rw [List.takeWhile_cons, if_pos (by simpa using hxle)]
    rcases List.mem_cons.mp hm with rfl | hmem
    · exact List.mem_cons_self _ _
    · exact List.mem_cons_of_mem _ (ih hxs hmem)

theorem list_getD_set_self {α : Type} (l : List α) (n : Nat) (a d : α)
    (h : n < l.length) : (l.set n a).getD n d = a := by
  induction l generalizing n with
  | nil => simp at h
  | cons x xs ih =>
    cases n with
    | zero => rfl
    | succ m =>
      simp only [List.set_cons_succ, List.getD, List.getElem?_cons_succ]
      have := ih m (by simpa using h)
      simpa [List.getD] using this

theorem add_remove_of_not_contains {m : EventSet} {e : Event}
    (h : m.contains e = false) : (m.add e).remove e = m := by
  cases e <;> rcases m with ⟨r, w⟩ <;>
    simp_all [EventSet.add, EventSet.remove, EventSet.contains]

theorem add_contains {m : EventSet} {e : Event} : (m.add e).contains e = true := by
  cases e <;> rcases m with ⟨r, w⟩ <;> simp [EventSet.add, EventSet.contains]

theorem add_not_isEmpty {m : EventSet} {e : Event} : (m.add e).isEmpty = false := by
  cases e <;> rcases m with ⟨r, w⟩ <;> simp [EventSet.add, EventSet.isEmpty]

theorem setEventContext_events (f : FdContext) (e : Event) (c : EventContext) :
    (f.setEventContext e c).events = f.events := by
  cases e <;> rfl

theorem epollCtl_addmod_eq {kernel : Nat → EventSet} {op : EpollCtlOp} {fd : Nat}
    {ev : EventSet} {k : Nat → EventSet}
    (hop : op = .ADD ∨ op = .MOD) (h : epollCtl kernel op fd ev = some k) :
    k = fun x => if x = fd then ev else kernel x := by
  rcases hop with rfl | rfl <;> unfold epollCtl at h <;> split at h <;> simp_all

/-! ## Claims -/

/-- C4 counterexample: with `m_previousTime = 1000` and `now = 500` the clock
went back by only half a second, yet `detectClockRollover` reports a
rollback, because `m_previousTime - 3600000` wraps around in `uint64_t`.
The claim's condition `now < prev - 3600000` (mathematical subtraction, i.e.
`now + 3600000 < prev`) is false here. -/
theorem detectClockRollover_wrap_cex :
    (detectClockRollover 1000 500).1 = true ∧ ¬ (500 + 3600000 < 1000) := by
  constructor
  · decide
  · omega

/-- C4 (amended): `detectClockRollover` reports a rollback iff `now` is
smaller than the previous observation by more than one hour, OR the previous
observation is itself below one hour and `now` is smaller than it at all —
the unsigned subtraction `m_previousTime - 3600000` wraps in the latter
case. -/
theorem detectClockRollover_spec (prev now : Nat)
    (hp : prev < 2 ^ 64) (hn : now < 2 ^ 64) :
    ((detectClockRollover prev now).1 = true ↔
      (now + 3600000 < prev ∨ (now < prev ∧ prev < 3600000))) := by
  unfold detectClockRollover usub64
  simp only [Bool.and_eq_true, decide_eq_true_eq]
  have h64 : (2 : Nat) ^ 64 = 18446744073709551616 := by norm_num
  rw [h64] at hp hn ⊢
  omega

/-- Witness for C4's amended theorem at `prev = 7200000`, `now = 0`. -/
theorem detectClockRollover_spec_witness :
    (7200000 : Nat) < 2 ^ 64 ∧ (0 : Nat) < 2 ^ 64 ∧
      (detectClockRollover 7200000 0).1 = true :=
  ⟨by norm_num, by norm_num,
   (detectClockRollover_spec 7200000 0 (by norm_num) (by norm_num)).mpr (by norm_num)⟩

/-- C5: `getNextTimer` clears the tickled flag in all cases and leaves the
timer set alone; it returns the `~0ull` sentinel on an empty set, `0` when
the earliest deadline (the head of the sorted set, minimal among all
deadlines) is already due, and the difference to `now` otherwise. -/
theorem getNextTimer_spec (s : TimerManager) (now_ms : Nat) :
    ((s.getNextTimer now_ms).2.m_tickled = false)
    ∧ ((s.getNextTimer now_ms).2.m_timers = s.m_timers)
    ∧ (s.m_timers = [] → (s.getNextTimer now_ms).1 = UINT64_MAX)
    ∧ (∀ t ts, s.m_timers = t :: ts → TimersSorted s.m_timers →
        ((∀ u ∈ s.m_timers, t.m_next ≤ u.m_next)
         ∧ (t.m_next ≤ now_ms → (s.getNextTimer now_ms).1 = 0)
         ∧ (now_ms < t.m_next → (s.getNextTimer now_ms).1 = t.m_next - now_ms))) := by
  rcases s with ⟨timers, tickled, prev⟩
  cases timers with
  | nil => exact ⟨rfl, rfl, fun _ => rfl, fun t ts h => by simp at h⟩
  | cons t ts =>
    have hred : (TimerManager.getNextTimer ⟨t :: ts, tickled, prev⟩ now_ms)
        = if t.m_next ≤ now_ms then (0, ⟨t :: ts, false, prev⟩)
          else (t.m_next - now_ms, ⟨t :: ts, false, prev⟩) := rfl
    refine ⟨?_, ?_, by simp, ?_⟩
    · rw [hred]; split <;> rfl
    · rw [hred]; split <;> rfl
    · rintro t' ts' heq hsort
      obtain ⟨rfl, rfl⟩ : t' = t ∧ ts' = ts := by
        injection heq with h1 h2; exact ⟨h1.symm, h2.symm⟩
      refine ⟨?_, ?_, ?_⟩
      · intro u hu
        rcases List.mem_cons.mp hu with rfl | hmem
        · exact le_refl _
        · exact timerLt_le ((List.pairwise_cons.mp hsort).1 u hmem)
      · intro hle
        rw [hred, if_pos hle]
      · intro hlt
        rw [hred, if_neg (Nat.not_le.mpr hlt)]

/-- Witness for C5's theorem: one pending timer with deadline 100, queried at
`now = 30`. -/
theorem getNextTimer_spec_witness :
    ((⟨[⟨1, 100, 50, false, some 3⟩], true, 0⟩ : TimerManager).m_timers
        = [⟨1, 100, 50, false, some 3⟩])
    ∧ TimersSorted ([⟨1, 100, 50, false, some 3⟩] : List Timer)
    ∧ ((30 : Nat) < 100)
    ∧ ((⟨[⟨1, 100, 50, false, some 3⟩], true, 0⟩ : TimerManager).getNextTimer 30).1
        = 100 - 30 := by
  refine ⟨rfl, by simp [TimersSorted], by omega, ?_⟩
  exact (((getNextTimer_spec ⟨[⟨1, 100, 50, false, some 3⟩], true, 0⟩ 30).2.2.2
    ⟨1, 100, 50, false, some 3⟩ [] rfl (by simp [TimersSorted])).2.2 (by decide))

/-- The timer set for the C6 counterexample: one recurring timer with period
0 ms whose deadline (5) has passed at `now = 10`; the previously observed
time is 10, so no clock rollback is detected. -/
def c6ex : TimerManager := ⟨[⟨1, 5, 0, true, some 2⟩], false, 10⟩

/-- C6 counterexample: the period-0 recurring timer's callback is returned,
and the timer is re-inserted with deadline `now + 0 = now = 10`, which is
not strictly greater than `now`. -/
theorem listExpiredCb_period_zero_cex :
    (c6ex.listExpiredCb 10).1 = [some 2]
    ∧ ((c6ex.listExpiredCb 10).2.m_timers.map Timer.m_next) = [10]
    ∧ ¬ ((10 : Nat) < 10) := by
  refine ⟨by decide, by decide, by omega⟩

/-- C10: `Timer::reset(ms, from_now)` with `ms` equal to the current period
and `from_now = false` returns `true` without reading or writing any state —
in particular also when the timer is cancelled (`m_cb` empty) or absent from
its manager's set; every other `reset` path and `refresh` return `false` in
those situations. -/
theorem timer_reset_same_period_spec (tm : Timer) (s : TimerManager)
    (now_ms ms : Nat) (from_now : Bool) :
    (ms = tm.m_ms ∧ from_now = false → tm.reset s now_ms ms from_now = (true, tm, s))
    ∧ ((ms ≠ tm.m_ms ∨ from_now = true) →
        (tm.m_cb = none ∨ ∀ u ∈ s.m_timers, u.id ≠ tm.id) →
        (tm.reset s now_ms ms from_now).1 = false)
    ∧ ((tm.m_cb = none ∨ ∀ u ∈ s.m_timers, u.id ≠ tm.id) →
        (tm.refresh s now_ms).1 = false) := by
  refine ⟨?_, ?_, ?_⟩
  · rintro ⟨rfl, rfl⟩
    unfold Timer.reset
    simp
  · intro hne hdead
    unfold Timer.reset
    have hcond : (ms == tm.m_ms && !from_now) = false := by
      rcases hne with h | rfl
      · simp [beq_eq_false_iff_ne, h]
      · simp
    rw [if_neg (by simp [hcond])]
    rcases hdead with hcb | habs
    · rw [if_pos hcb]
    · split
      · rfl
      · rw [if_pos ?_]
        simp only [List.any_eq_true, beq_iff_eq, not_exists] at *
        simp only [Bool.not_eq_true', List.any_eq_false]
        intro u hu
        simp [habs u hu]
  · intro hdead
    unfold Timer.refresh
    rcases hdead with hcb | habs
    · rw [if_pos hcb]
    · split
      · rfl
      · rw [if_pos ?_]
        simp only [Bool.not_eq_true', List.any_eq_false]
        intro u hu
        simp [habs u hu]

/-- Witness for C10's theorem: a cancelled timer (empty callback, not in any
set): same-period non-anchored `reset` still returns `true` and changes
nothing, while `refresh` returns `false`. -/
theorem timer_reset_same_period_witness :
    ((50 : Nat) = (⟨1, 100, 50, false, none⟩ : Timer).m_ms ∧ false = false)
    ∧ Timer.reset ⟨1, 100, 50, false, none⟩ ⟨[], false, 0⟩ 0 50 false
        = (true, ⟨1, 100, 50, false, none⟩, ⟨[], false, 0⟩)
    ∧ (Timer.refresh ⟨1, 100, 50, false, none⟩ ⟨[], false, 0⟩ 0).1 = false :=
  ⟨⟨rfl, rfl⟩,
   (timer_reset_same_period_spec ⟨1, 100, 50, false, none⟩ ⟨[], false, 0⟩ 0 50 false).1
     ⟨rfl, rfl⟩,
   (timer_reset_same_period_spec ⟨1, 100, 50, false, none⟩ ⟨[], false, 0⟩ 0 50 false).2.2
     (Or.inl rfl)⟩

/-- C7: because `SYLAR_ASSERT_ON = false`, the precondition assertion in
`Fiber::resume` is dead code: resuming a TERM (or RUNNING) fiber does not
fail — the call proceeds to set the state to RUNNING and executes
`swapcontext` (the `some` result), saving the caller into the scheduling
fiber or the thread's main fiber according to `m_runInScheduler`. -/
theorem fiber_resume_term_proceeds :
    Fiber.resume ⟨.TERM, true⟩ = some (⟨.RUNNING, true⟩, .schedulerMainFiber)
    ∧ Fiber.resume ⟨.RUNNING, false⟩ = some (⟨.RUNNING, false⟩, .threadMainFiber)
    ∧ Fiber.resume ⟨.READY, true⟩ = some (⟨.RUNNING, true⟩, .schedulerMainFiber)
    ∧ Fiber.resume ⟨.READY, false⟩ = some (⟨.RUNNING, false⟩, .threadMainFiber) := by
  decide

/-- C8: `Scheduler::schedule` on a task that holds a fiber or a callback
appends it at the tail of the FIFO queue, and calls `tickle()` exactly when
the queue was empty immediately before the push. -/
theorem scheduler_schedule_spec (s : Scheduler) (task : ScheduleTask)
    (hvalid : task.fiber.isSome = true ∨ task.cb.isSome = true) :
    (s.schedule task).1.m_tasks = s.m_tasks ++ [task]
    ∧ ((s.schedule task).2 = true ↔ s.m_tasks = []) := by
  unfold Scheduler.schedule Scheduler.scheduleNoLock
  have hcond : (task.fiber.isSome || task.cb.isSome) = true := by
    rcases hvalid with h | h <;> simp [h]
  simp [hcond, List.isEmpty_iff]

/-- Witness for C8's theorem: scheduling a fiber task on an empty queue. -/
theorem scheduler_schedule_spec_witness :
    ((⟨some 1, none, -1⟩ : ScheduleTask).fiber.isSome = true
      ∨ (⟨some 1, none, -1⟩ : ScheduleTask).cb.isSome = true)
    ∧ (Scheduler.schedule ⟨[]⟩ ⟨some 1, none, -1⟩).1.m_tasks = [] ++ [⟨some 1, none, -1⟩]
    ∧ ((Scheduler.schedule ⟨[]⟩ ⟨some 1, none, -1⟩).2 = true ↔ ([] : List ScheduleTask) = []) :=
  ⟨Or.inl rfl,
   (scheduler_schedule_spec ⟨[]⟩ ⟨some 1, none, -1⟩ (Or.inl rfl)).1,
   (scheduler_schedule_spec ⟨[]⟩ ⟨some 1, none, -1⟩ (Or.inl rfl)).2⟩

/-- The IOManager state after one successful `addEvent(0, READ, cb#5)` from
scheduler #1 / fiber #9 on a freshly constructed manager. -/
def ioAfterFirstAdd : IOManager :=
  (initialIOManager.addEvent 0 .READ (some 5) (some 1) 9).2

/-- C1: registering READ on fd 0 a second time does NOT return an error and
does NOT leave the state unchanged.  The duplicate branch of `addEvent` only
logs (its `SYLAR_ASSERT` is dead code because `SYLAR_ASSERT_ON = false`), so
the call falls through: it returns 0 (success), increments
`m_pendingEventCount` from 1 to 2, and overwrites the READ `EventContext`
(callback #5 is replaced by callback #6). -/
theorem addEvent_duplicate_falls_through :
    ((ioAfterFirstAdd.addEvent 0 .READ (some 6) (some 1) 9).1 = 0)
    ∧ (ioAfterFirstAdd.m_pendingEventCount = 1)
    ∧ ((ioAfterFirstAdd.addEvent 0 .READ (some 6) (some 1) 9).2.m_pendingEventCount = 2)
    ∧ ((ioAfterFirstAdd.fdContextOf 0).read = ⟨some 1, none, some 5⟩)
    ∧ (((ioAfterFirstAdd.addEvent 0 .READ (some 6) (some 1) 9).2.fdContextOf 0).read
        = ⟨some 1, none, some 6⟩)
    ∧ ((ioAfterFirstAdd.fdContextOf 0).events.contains .READ = true) := by
  refine ⟨by decide, by decide, by decide, by decide, by decide, by decide⟩

/-- C2: the pending-event counter invariant is broken by the duplicate-add
fall-through.  After `addEvent(0, READ)` twice (both calls return 0, i.e.
both are completed operations), `m_pendingEventCount = 2` while the sum of
the registered mask sizes over all fd-contexts is 1. -/
theorem pendingEventCount_invariant_broken :
    ((initialIOManager.addEvent 0 .READ (some 5) (some 1) 9).1 = 0)
    ∧ ((ioAfterFirstAdd.addEvent 0 .READ (some 6) (some 1) 9).1 = 0)
    ∧ ((ioAfterFirstAdd.addEvent 0 .READ (some 6) (some 1) 9).2.m_pendingEventCount = 2)
    ∧ ((ioAfterFirstAdd.addEvent 0 .READ (some 6) (some 1) 9).2.maskSum = 1) := by
  refine ⟨by decide, by decide, by decide, by decide⟩

/-- The fd-context used in the C3 counterexample: READ registered, with a
captured scheduler #7 and callback #3. -/
def c3fdc : FdContext := ⟨0, ⟨some 7, none, some 3⟩, .empty, ⟨true, false⟩⟩

/-- C3 counterexample: the two implementation copies of `triggerEvent` do
NOT have the same behaviour on a registered event with a callback.  The copy
in src/src/iomanager.cc invokes the callback inline in the calling context
and schedules nothing; the copy in src/sylar/src/iomanager.cc schedules the
callback on the captured scheduler and invokes nothing inline. -/
theorem triggerEvent_copies_differ_cex :
    (c3fdc.triggerEventSrc .READ).inlineCalls = [3]
    ∧ (c3fdc.triggerEventSrc .READ).scheduled = []
    ∧ (c3fdc.triggerEventSylar .READ).inlineCalls = []
    ∧ (c3fdc.triggerEventSylar .READ).scheduled = [⟨some 7, none, some 3⟩] := by
  refine ⟨by decide, by decide, by decide, by decide⟩

/-- C3 (amended): for every `FdContext` whose mask contains `e`, both copies
of `triggerEvent` clear bit `e`, reset the `EventContext` for `e` and leave
the same `FdContext`; when the `EventContext` holds no callback both
schedule the captured fiber on the captured scheduler; but when it holds a
callback the src/sylar copy schedules it on the captured scheduler while the
src/src copy invokes it inline in the calling context. -/
theorem triggerEvent_spec (f : FdContext) (e : Event)
    (h : f.events.contains e = true) :
    ((f.triggerEventSylar e).fdc.events = f.events.remove e)
    ∧ ((f.triggerEventSylar e).fdc.getEventContext e = EventContext.empty)
    ∧ ((f.triggerEventSylar e).scheduled =
        if (f.getEventContext e).cb.isSome = true
        then [⟨(f.getEventContext e).scheduler, none, (f.getEventContext e).cb⟩]
        else [⟨(f.getEventContext e).scheduler, (f.getEventContext e).fiber, none⟩])
    ∧ ((f.triggerEventSylar e).inlineCalls = [])
    ∧ ((f.triggerEventSrc e).fdc = (f.triggerEventSylar e).fdc)
    ∧ (∀ c, (f.getEventContext e).cb = some c →
        (f.triggerEventSrc e).inlineCalls = [c] ∧ (f.triggerEventSrc e).scheduled = [])
    ∧ ((f.getEventContext e).cb = none →
        ((f.triggerEventSrc e).scheduled
          = [⟨(f.getEventContext e).scheduler, (f.getEventContext e).fiber, none⟩]
         ∧ (f.triggerEventSrc e).inlineCalls = [])) := by
  rcases f with ⟨fd0, r, w, ev⟩
  cases e
  · cases hcb : r.cb <;>
      simp_all [FdContext.triggerEventSylar, FdContext.triggerEventSrc,
        FdContext.getEventContext, FdContext.resetEventContext,
        FdContext.setEventContext, EventSet.remove]
  · cases hcb : w.cb <;>
      simp_all [FdContext.triggerEventSylar, FdContext.triggerEventSrc,
        FdContext.getEventContext, FdContext.resetEventContext,
        FdContext.setEventContext, EventSet.remove]

/-- Witness for C3's amended theorem at the counterexample fd-context. -/
theorem triggerEvent_spec_witness :
    c3fdc.events.contains .READ = true
    ∧ (c3fdc.triggerEventSrc .READ).inlineCalls = [3] :=
  ⟨rfl, ((triggerEvent_spec c3fdc .READ rfl).2.2.2.2.2.1 3 rfl).1⟩

theorem expired_core (expired remaining : List Timer) (now_ms : Nat)
    (hids : ((expired ++ remaining).map Timer.id).Nodup) :
    (∀ t ∈ expired, t.m_recurring = false →
      ∀ u ∈ ((expired.filter (fun x => x.m_recurring)).map
          (fun x => { x with m_next := uadd64 now_ms x.m_ms })).foldl insertTimer remaining,
        u.id ≠ t.id)
    ∧ (∀ t ∈ expired, t.m_recurring = true →
      { t with m_next := uadd64 now_ms t.m_ms } ∈
        ((expired.filter (fun x => x.m_recurring)).map
          (fun x => { x with m_next := uadd64 now_ms x.m_ms })).foldl insertTimer remaining) := by
  rw [List.map_append] at hids
  rcases List.nodup_append.mp hids with ⟨hnl, _, hdisj⟩
  constructor
  · intro t ht hrec u hu hid
    rcases (mem_foldl_insertTimer _ _).mp hu with hur | hui
    · exact hdisj (List.mem_map_of_mem Timer.id ht)
        (hid ▸ List.mem_map_of_mem Timer.id hur)
    · rcases List.mem_map.mp hui with ⟨v, hv, rfl⟩
      rcases List.mem_filter.mp hv with ⟨hvmem, hvrec⟩
      have hvt : v = t :=
        List.inj_on_of_nodup_map hnl hvmem ht hid
      rw [hvt] at hvrec
      rw [hrec] at hvrec
      simp at hvrec
  · intro t ht hrec
    refine (mem_foldl_insertTimer _ _).mpr (Or.inr ?_)
    exact List.mem_map_of_mem _ (List.mem_filter.mpr ⟨ht, by simp [hrec]⟩)

/-- C6 (amended): after `listExpiredCb` at time `now`, no timer whose
callback was returned remains in the ordered set, except recurring timers,
each re-inserted with new deadline `(now + period) mod 2 ^ 64` (the
`uint64_t` sum) — which is strictly greater than `now` exactly when the
period is positive AND `now + period` does not overflow `uint64_t`: a
recurring timer with period 0 ms is re-inserted with deadline equal to
`now`, and a positive period large enough to wrap yields a deadline below
`now`. -/
theorem listExpiredCb_spec (s : TimerManager) (now_ms : Nat)
    (hsorted : TimersSorted s.m_timers)
    (hids : (s.m_timers.map Timer.id).Nodup)
    (hn : now_ms < 2 ^ 64)
    (hms : ∀ t ∈ s.m_timers, t.m_ms < 2 ^ 64) :
    (∀ t ∈ s.m_timers,
      ((detectClockRollover s.m_previousTime now_ms).1 = true ∨ t.m_next ≤ now_ms) →
      t.m_recurring = false →
      ∀ u ∈ (s.listExpiredCb now_ms).2.m_timers, u.id ≠ t.id)
    ∧ (∀ t ∈ s.m_timers,
      ((detectClockRollover s.m_previousTime now_ms).1 = true ∨ t.m_next ≤ now_ms) →
      t.m_recurring = true →
      ({ t with m_next := uadd64 now_ms t.m_ms } ∈ (s.listExpiredCb now_ms).2.m_timers
       ∧ (now_ms < uadd64 now_ms t.m_ms ↔ (0 < t.m_ms ∧ now_ms + t.m_ms < 2 ^ 64)))) := by
  rcases s with ⟨timers, tickled, prev⟩
  cases timers with
  | nil =>
    constructor <;> intro t ht <;> simp at ht
  | cons first rest =>
    simp only at hsorted hids hms ⊢
    have hred : (TimerManager.listExpiredCb ⟨first :: rest, tickled, prev⟩ now_ms)
        = (if !(detectClockRollover prev now_ms).1 && decide (now_ms < first.m_next)
           then (([] : List (Option Nat)),
                 ({ m_timers := first :: rest, m_tickled := tickled,
                    m_previousTime := (detectClockRollover prev now_ms).2 } : TimerManager))
           else
             ((if (detectClockRollover prev now_ms).1 then first :: rest
               else (first :: rest).takeWhile (fun t => decide (t.m_next ≤ now_ms))).map
                 Timer.m_cb,
              { m_timers :=
                  (((if (detectClockRollover prev now_ms).1 then first :: rest
                     else (first :: rest).takeWhile
                       (fun t => decide (t.m_next ≤ now_ms))).filter
                      (fun t => t.m_recurring)).map
                     (fun t => { t with m_next := uadd64 now_ms t.m_ms })).foldl insertTimer
                   (if (detectClockRollover prev now_ms).1 then []
                    else (first :: rest).dropWhile (fun t => decide (t.m_next ≤ now_ms)))
                m_tickled := tickled
                m_previousTime := (detectClockRollover prev now_ms).2 })) := rfl
    by_cases hr : (detectClockRollover prev now_ms).1 = true
    · -- rollover: the whole set is expired
      have hids' : (((first :: rest) ++ ([] : List Timer)).map Timer.id).Nodup := by
        simpa using hids
      have hcore := expired_core (first :: rest) [] now_ms hids'
      rw [hred, if_neg (by simp [hr])]
      simp only [hr, eq_self_iff_true, if_true]
      constructor
      · intro t ht _ hrec u hu
        exact hcore.1 t ht hrec u hu
      · intro t ht _ hrec
        refine ⟨hcore.2 t ht hrec, ?_⟩
        have hm := hms t ht
        unfold uadd64
        have h64 : (2 : Nat) ^ 64 = 18446744073709551616 := by norm_num
        rw [h64] at hn hm ⊢
        omega
    · have hrf : (detectClockRollover prev now_ms).1 = false :=
        Bool.eq_false_iff.mpr hr
      by_cases hhead : now_ms < first.m_next
      · -- nothing due: the early return leaves the set unchanged, and no
        -- timer is expired (the head is minimal)
        rw [hred, if_pos (by simp [hrf, hhead])]
        dsimp only
        constructor
        · intro t ht hcond hrec u hu hid
          rcases hcond with hcond | hcond
          · exact hr hcond
          · have : first.m_next ≤ t.m_next := by
              rcases List.mem_cons.mp ht with rfl | hmem
              · exact le_refl _
              · exact timerLt_le ((List.pairwise_cons.mp hsorted).1 t hmem)
            omega
        · intro t ht hcond hrec
          rcases hcond with hcond | hcond
          · exact absurd hcond hr
          · have : first.m_next ≤ t.m_next := by
              rcases List.mem_cons.mp ht with rfl | hmem
              · exact le_refl _
              · exact timerLt_le ((List.pairwise_cons.mp hsorted).1 t hmem)
            omega
      · -- main path: the expired timers are the initial run with
        -- m_next ≤ now_ms
        have hsplit : (first :: rest).takeWhile (fun t => decide (t.m_next ≤ now_ms))
            ++ (first :: rest).dropWhile (fun t => decide (t.m_next ≤ now_ms))
            = first :: rest := List.takeWhile_append_dropWhile _ _
        have hids' : ((((first :: rest).takeWhile (fun t => decide (t.m_next ≤ now_ms)))
            ++ ((first :: rest).dropWhile (fun t => decide (t.m_next ≤ now_ms)))).map
              Timer.id).Nodup := by
          rw [hsplit]; exact hids
        have hcore := expired_core _ _ now_ms hids'
        rw [hred, if_neg (by simp [hrf, hhead])]
        simp only [hrf, Bool.false_eq_true, if_false]
        constructor
        · intro t ht hcond hrec u hu
          rcases hcond with hcond | hcond
          · exact hcond.elim
          · exact hcore.1 t (sorted_mem_takeWhile hsorted ht hcond) hrec u hu
        · intro t ht hcond hrec
          rcases hcond with hcond | hcond
          · exact hcond.elim
          · refine ⟨hcore.2 t (sorted_mem_takeWhile hsorted ht hcond) hrec, ?_⟩
            have hm := hms t ht
            unfold uadd64
            have h64 : (2 : Nat) ^ 64 = 18446744073709551616 := by norm_num
            rw [h64] at hn hm ⊢
            omega

/-- Witness for C6's amended theorem: a recurring timer with period 3 and
deadline 5 collected at `now = 10` is re-inserted with deadline 13. -/
theorem listExpiredCb_spec_witness :
    TimersSorted ([⟨1, 5, 3, true, some 2⟩] : List Timer)
    ∧ (([⟨1, 5, 3, true, some 2⟩] : List Timer).map Timer.id).Nodup
    ∧ (10 : Nat) < 2 ^ 64
    ∧ (∀ t ∈ ([⟨1, 5, 3, true, some 2⟩] : List Timer), t.m_ms < 2 ^ 64)
    ∧ (⟨1, 13, 3, true, some 2⟩ : Timer) ∈
        (TimerManager.listExpiredCb ⟨[⟨1, 5, 3, true, some 2⟩], false, 10⟩ 10).2.m_timers :=
  ⟨by simp [TimersSorted], by simp, by norm_num, by simp,
   ((listExpiredCb_spec ⟨[⟨1, 5, 3, true, some 2⟩], false, 10⟩ 10
      (by simp [TimersSorted]) (by simp) (by norm_num) (by simp)).2
     ⟨1, 5, 3, true, some 2⟩ (by simp) (Or.inr (by decide)) rfl).1⟩

/-- C9: on an fd whose context does not have event `e` registered (and
whose `EventContext` for `e` is empty, as the data-model invariant
guarantees for unregistered events), a successful `addEvent(fd, e, cb)`
followed by `delEvent(fd, e)` succeeds and restores that fd's `FdContext`
exactly: the registered mask and both the READ and WRITE EventContexts. -/
theorem addEvent_delEvent_roundtrip (s : IOManager) (fd : Nat) (e : Event)
    (cb cs : Option Nat) (cf : Nat)
    (hrange : fd < s.m_fdContexts.length)
    (hreg : (s.fdContextOf fd).events.contains e = false)
    (hctx : (s.fdContextOf fd).getEventContext e = EventContext.empty)
    (hok : (s.addEvent fd e cb cs cf).1 = 0) :
    (((s.addEvent fd e cb cs cf).2.delEvent fd e).1 = true)
    ∧ (((s.addEvent fd e cb cs cf).2.delEvent fd e).2.fdContextOf fd
        = s.fdContextOf fd) := by
  unfold IOManager.fdContextOf at hreg hctx ⊢
  have hsel : (if fd < s.m_fdContexts.length then s
      else { s with m_fdContexts := contextResize s.m_fdContexts (3 * fd / 2) }) = s :=
    if_pos hrange
  cases hk : epollCtl s.kernel
      (if (s.m_fdContexts.getD fd (FdContext.fresh fd)).events.isEmpty
       then EpollCtlOp.ADD else EpollCtlOp.MOD) fd
      ((s.m_fdContexts.getD fd (FdContext.fresh fd)).events.add e) with
  | none =>
    exfalso
    unfold IOManager.addEvent at hok
    rw [hsel] at hok
    simp only [hk] at hok
    exact absurd hok (by decide)
  | some k =>
    have hop : (if (s.m_fdContexts.getD fd (FdContext.fresh fd)).events.isEmpty
        then EpollCtlOp.ADD else EpollCtlOp.MOD) = EpollCtlOp.ADD
        ∨ (if (s.m_fdContexts.getD fd (FdContext.fresh fd)).events.isEmpty
        then EpollCtlOp.ADD else EpollCtlOp.MOD) = EpollCtlOp.MOD := by
      split
      · exact Or.inl rfl
      · exact Or.inr rfl
    have hkfd : k fd = (s.m_fdContexts.getD fd (FdContext.fresh fd)).events.add e := by
      rw [epollCtl_addmod_eq hop hk]
      simp
    have hkne : (k fd).isEmpty = false := by
      rw [hkfd]
      exact add_not_isEmpty
    unfold IOManager.addEvent
    rw [hsel]
    simp only [hk]
    unfold IOManager.delEvent
    dsimp only
    rw [if_neg (by rw [List.length_set]; omega)]
    rw [list_getD_set_self _ fd _ _ hrange]
    rw [setEventContext_events]
    dsimp only
    rw [add_contains]
    rw [if_neg (by decide)]
    rw [add_remove_of_not_contains hreg]
    by_cases hemp : (s.m_fdContexts.getD fd (FdContext.fresh fd)).events.isEmpty = true
    · rw [if_pos hemp]
      simp only [epollCtl, hkne, Bool.false_eq_true, if_false]
      refine ⟨by trivial, ?_⟩
      rw [List.set_set, list_getD_set_self _ fd _ _ hrange]
      revert hreg hctx
      generalize s.m_fdContexts.getD fd (FdContext.fresh fd) = F
      intro hreg hctx
      obtain ⟨fd0, r, w, ev⟩ := F
      cases e <;> simp_all [FdContext.setEventContext, FdContext.resetEventContext,
        FdContext.getEventContext, EventContext.empty]
    · rw [if_neg hemp]
      simp only [epollCtl, hkne, Bool.false_eq_true, if_false]
      refine ⟨by trivial, ?_⟩
      rw [List.set_set, list_getD_set_self _ fd _ _ hrange]
      revert hreg hctx
      generalize s.m_fdContexts.getD fd (FdContext.fresh fd) = F
      intro hreg hctx
      obtain ⟨fd0, r, w, ev⟩ := F
      cases e <;> simp_all [FdContext.setEventContext, FdContext.resetEventContext,
        FdContext.getEventContext, EventContext.empty]

/-- Witness for C9's theorem: `addEvent(3, WRITE)` then `delEvent(3, WRITE)`
on a freshly constructed IOManager. -/
theorem addEvent_delEvent_roundtrip_witness :
    (3 < initialIOManager.m_fdContexts.length)
    ∧ ((initialIOManager.fdContextOf 3).events.contains .WRITE = false)
    ∧ ((initialIOManager.fdContextOf 3).getEventContext .WRITE = EventContext.empty)
    ∧ ((initialIOManager.addEvent 3 .WRITE none (some 1) 9).1 = 0)
    ∧ (((initialIOManager.addEvent 3 .WRITE none (some 1) 9).2.delEvent 3 .WRITE).2.fdContextOf 3
        = initialIOManager.fdContextOf 3) :=
  ⟨by decide, by decide, by decide, by decide,
   (addEvent_delEvent_roundtrip initialIOManager 3 .WRITE none (some 1) 9
     (by decide) (by decide) (by decide) (by decide)).2⟩

end Sylar
